import Mathlib

/-!
Verification of the EV charging-desert analysis pipeline (ev_analysis.py).

The script is a linear pandas pipeline: filter the vehicle registrations to
Washington-State battery-electric vehicles and the stations to public ones,
aggregate both by postal code, left-merge the two aggregates, derive a
demand/supply ratio with an infinity sentinel, classify each code into a
priority bucket, and derive two ranked views.

Shallow embedding conventions:
- a dataframe is a `List` of row structures, in the physical row order;
- float64 columns are `ℚ` (the values occurring are exact decimals), with
  `Option` for NaN-able columns; the infinite ratio sentinel `np.inf` is `⊤`
  in `WithTop ℚ`;
- port-count columns hold counts, modelled as `Option Nat` (NaN = `none`);
- the lambda `x.mode()[0] if len(x) > 0 else ''` can raise `KeyError` when
  the mode list is empty, so aggregation runs in `Except String`;
- pandas label alignment (used by `Series.fillna(other_series)`) is modelled
  by the label type `PLabel`: a RangeIndex label is `PLabel.pint i`, a
  string-index label is `PLabel.pstr s`, and alignment is lookup by label
  equality, exactly as pandas matches labels.
-/

/-- One row of `ev_population.csv`, restricted to the columns the script
reads.  `postalCode` is the value of `ev['Postal Code'].astype(str)` (the
raw column is float64, so a numeric code renders as e.g. "98101.0");
`vin` is `VIN (1-10)`, `location` is `Vehicle Location`; `none` models NaN. -/
structure VehicleRow where
  state : String
  evType : String
  postalCode : String
  county : Option String
  city : Option String
  vin : Option String
  location : Option String
deriving DecidableEq

/-- One row of `charging_stations.csv`, restricted to the columns the script
reads.  `zip` is the raw int64 `ZIP`; `level2` is `EV Level2 EVSE Num`,
`dcFast` is `EV DC Fast Count` (port counts, `none` models NaN). -/
structure StationRow where
  accessCode : String
  zip : Int
  level2 : Option Nat
  dcFast : Option Nat
  lat : Option ℚ
  lng : Option ℚ
deriving DecidableEq

/-- One row of the `ev_by_zip` aggregate. -/
structure EvZipRow where
  postal : String
  totalEVs : Nat
  county : Option String
  city : String
deriving DecidableEq

/-- One row of the `ports_by_zip` aggregate. -/
structure PortsZipRow where
  zip : String
  totalPorts : Nat
  lat : Option ℚ
  lng : Option ℚ
deriving DecidableEq

/-- One row of `df` right after the left merge (line 140): the station-side
columns are `Option` because unmatched vehicle codes get NaN there. -/
structure MergedRow where
  postal : String
  totalEVs : Nat
  county : Option String
  city : String
  zipCol : Option String
  portsRaw : Option Nat
  lat : Option ℚ
  lng : Option ℚ
deriving DecidableEq

/-- One fully derived row of the master dataframe `df` (ZipSummary):
`totalPorts` after `fillna(0).astype(int)`, `ratioVal` the
`EV_to_Port_Ratio` column (`⊤` models `np.inf`), `priority` the
`Priority_Level` column. -/
structure Row where
  postal : String
  totalEVs : Nat
  county : Option String
  city : String
  totalPorts : Nat
  lat : Option ℚ
  lng : Option ℚ
  ratioVal : WithTop ℚ
  priority : String
deriving DecidableEq

/-- Python `str.replace(".0", "")` specialised to the pattern ".0"
(line 37: `ev['Postal Code'].astype(str).str.replace('.0', '', regex=False)`):
scan left to right, removing each non-overlapping occurrence of ".0". -/
def stripDot0 : List Char → List Char
  | [] => []
  | [c] => [c]
  | c :: d :: rest =>
    if c = '.' ∧ d = '0' then stripDot0 rest
    else c :: stripDot0 (d :: rest)

/-- Normalisation of the vehicle-side join key (line 37). -/
def normalizeZip (s : String) : String := String.mk (stripDot0 s.data)

/-- Line 37 applied to the whole `Postal Code` column. -/
def normalizeVehicles (ev : List VehicleRow) : List VehicleRow :=
  ev.map (fun r => { r with postalCode := normalizeZip r.postalCode })

/-- Lines 85 and 89: `ev_wa = ev[ev['State'] == 'WA']` then
`ev_bev = ev_wa[ev_wa['Electric Vehicle Type'] == 'Battery Electric Vehicle (BEV)']`,
applied after the key normalisation of line 37. -/
def bevVehicles (ev : List VehicleRow) : List VehicleRow :=
  ((normalizeVehicles ev).filter (fun r => r.state = "WA")).filter
    (fun r => r.evType = "Battery Electric Vehicle (BEV)")

/-- Code-point lexicographic comparison of character lists, the order
Python uses to compare strings (and hence the order pandas sorts string
keys and string modes by). -/
def listLe : List Char → List Char → Bool
  | [], _ => true
  | _ :: _, [] => false
  | a :: as, b :: bs =>
    if a.toNat < b.toNat then true
    else if b.toNat < a.toNat then false
    else listLe as bs

/-- Python string comparison (code-point lexicographic). -/
def strLe (a b : String) : Bool := listLe a.data b.data

theorem listLe_total : ∀ (x y : List Char), listLe x y = true ∨ listLe y x = true := by
  intro x
  induction x with
  | nil => intro y; exact Or.inl rfl
  | cons a as ih =>
    intro y
    cases y with
    | nil => exact Or.inr rfl
    | cons b bs =>
      by_cases hab : a.toNat < b.toNat
      · exact Or.inl (by simp [listLe, hab])
      · by_cases hba : b.toNat < a.toNat
        · exact Or.inr (by simp [listLe, hba])
        · rcases ih bs with h | h
          · exact Or.inl (by simp [listLe, hab, hba, h])
          · exact Or.inr (by simp [listLe, hab, hba, h])

theorem listLe_trans : ∀ {x y z : List Char},
    listLe x y = true → listLe y z = true → listLe x z = true := by
  intro x
  induction x with
  | nil => intro y z _ _; rfl
  | cons a as ih =>
    intro y z h1 h2
    cases y with
    | nil => simp [listLe] at h1
    | cons b bs =>
      cases z with
      | nil => simp [listLe] at h2
      | cons c cs =>
        simp only [listLe] at h1 h2 ⊢
        by_cases hab : a.toNat < b.toNat
        · by_cases hbc : b.toNat < c.toNat
          · have hac : a.toNat < c.toNat := Nat.lt_trans hab hbc
            simp [hac]
          · by_cases hcb : c.toNat < b.toNat
            · simp [hbc, hcb] at h2
            · have hac : a.toNat < c.toNat := by omega
              simp [hac]
        · by_cases hba : b.toNat < a.toNat
          · simp [hab, hba] at h1
          · simp only [if_neg hab, if_neg hba] at h1
            by_cases hbc : b.toNat < c.toNat
            · have hac : a.toNat < c.toNat := by omega
              simp [hac]
            · by_cases hcb : c.toNat < b.toNat
              · simp [hbc, hcb] at h2
              · have hac : ¬ a.toNat < c.toNat := by omega
                have hca : ¬ c.toNat < a.toNat := by omega
                simp only [if_neg hbc, if_neg hcb] at h2
                simp only [if_neg hac, if_neg hca]
                exact ih h1 h2

instance : IsTotal String (fun a b => strLe a b = true) :=
  ⟨fun a b => listLe_total a.data b.data⟩

instance : IsTrans String (fun a b => strLe a b = true) :=
  ⟨fun _ _ _ h1 h2 => listLe_trans h1 h2⟩

/-- The sorted, deduplicated group keys produced by `groupby` (pandas
`groupby(sort=True)` sorts the distinct keys ascending, by Python string
comparison). -/
def groupKeys (keys : List String) : List String :=
  keys.dedup.insertionSort (fun a b => strLe a b = true)

/-- Semantics of `pandas.Series.first` used by `agg(..., 'first')`:
the first non-NaN value of the column, NaN when there is none. -/
def firstNonNull {α : Type} (l : List (Option α)) : Option α :=
  l.reduceOption.head?

/-- Semantics of `pandas.Series.mode` on a column of strings: drop NaN, keep the values
attaining the maximal multiplicity, and return them sorted ascending
(pandas documents the modes as returned in sorted order). -/
def seriesMode (l : List (Option String)) : List String :=
  let vals := l.reduceOption
  let uniq := vals.dedup
  let maxCount := (uniq.map (fun v => vals.count v)).foldr max 0
  (uniq.filter (fun v => vals.count v = maxCount)).insertionSort
    (fun a b => strLe a b = true)

/-- The `City` aggregation lambda of line 118:
`lambda x: x.mode()[0] if len(x) > 0 else ''`.  `x.mode()[0]` is label-based
indexing into the mode Series; when every city in the group is NaN the mode
Series is empty and the lookup raises `KeyError: 0`, which the script does
not catch. -/
def cityAgg (l : List (Option String)) : Except String String :=
  if 0 < l.length then
    match (seriesMode l).head? with
    | some c => Except.ok c
    | none => Except.error "KeyError: 0"
  else Except.ok ""

/-- Effectful map over a list in `Except`, returning the first error. -/
def exceptMapM {ε α β : Type} (f : α → Except ε β) : List α → Except ε (List β)
  | [] => Except.ok []
  | a :: l =>
    match f a with
    | Except.error e => Except.error e
    | Except.ok b => Except.map (fun bs => b :: bs) (exceptMapM f l)

/-- The rows of `ev_bev` sharing one (normalised) postal code. -/
def evZipGroup (evBev : List VehicleRow) (code : String) : List VehicleRow :=
  evBev.filter (fun r => r.postalCode = code)

/-- Lines 115-119: `ev_by_zip = ev_bev.groupby('Postal Code').agg(
Total_EVs=('VIN (1-10)', 'count'), County=('County', 'first'),
City=('City', lambda x: x.mode()[0] if len(x) > 0 else '')).reset_index()`.
`'count'` counts the non-NaN VIN values of the group. -/
def ev_by_zip (evBev : List VehicleRow) : Except String (List EvZipRow) :=
  exceptMapM
    (fun code =>
      let grp := evZipGroup evBev code
      Except.map
        (fun cty =>
          { postal := code
            totalEVs := (grp.map (fun r => r.vin)).reduceOption.length
            county := firstNonNull (grp.map (fun r => r.county))
            city := cty })
        (cityAgg (grp.map (fun r => r.city))))
    (groupKeys (evBev.map (fun r => r.postalCode)))

/-- Lines 100-105: `Total_Ports` of one public station,
`level2.fillna(0) + dcFast.fillna(0)`. -/
def stationPorts (r : StationRow) : Nat :=
  r.level2.getD 0 + r.dcFast.getD 0

/-- Semantics of `pandas.Series.mean` on a float column: NaN values are skipped,
and the mean of an all-NaN column is NaN. -/
def meanOpt (l : List (Option ℚ)) : Option ℚ :=
  let v := l.reduceOption
  if v.length = 0 then none else some (v.sum / (v.length : ℚ))

/-- Lines 126-130: `ports_by_zip = stations_public.groupby('ZIP').agg(
Total_Ports=('Total_Ports', 'sum'), Latitude=('Latitude', 'mean'),
Longitude=('Longitude', 'mean')).reset_index()`, grouping on the
stringified ZIP of line 38. -/
def ports_by_zip (stPub : List StationRow) : List PortsZipRow :=
  (groupKeys (stPub.map (fun r => toString r.zip))).map (fun z =>
    let grp := stPub.filter (fun r => toString r.zip = z)
    { zip := z
      totalPorts := (grp.map stationPorts).sum
      lat := meanOpt (grp.map (fun r => r.lat))
      lng := meanOpt (grp.map (fun r => r.lng)) })

/-- Lines 140-145: `df = ev_by_zip.merge(ports_by_zip, left_on='Postal Code',
right_on='ZIP', how='left')`.  Each left row is paired with every matching
right row, and kept once with NaN station columns when nothing matches. -/
def leftMerge (evz : List EvZipRow) (pz : List PortsZipRow) : List MergedRow :=
  evz.flatMap (fun e =>
    let ms := pz.filter (fun p => p.zip = e.postal)
    if ms.isEmpty then
      [{ postal := e.postal, totalEVs := e.totalEVs, county := e.county,
         city := e.city, zipCol := none, portsRaw := none,
         lat := none, lng := none }]
    else
      ms.map (fun p =>
        { postal := e.postal, totalEVs := e.totalEVs, county := e.county,
          city := e.city, zipCol := some p.zip, portsRaw := some p.totalPorts,
          lat := p.lat, lng := p.lng }))

/-- Python `str(location)`: NaN renders as the string "nan". -/
def pyStr : Option String → String
  | none => "nan"
  | some s => s

/-- Helper for `pySplit`: accumulate the current word (reversed) while
scanning. -/
def splitWSAux : List Char → List Char → List (List Char)
  | [], acc => if acc.isEmpty then [] else [acc.reverse]
  | c :: rest, acc =>
    if c.isWhitespace then
      if acc.isEmpty then splitWSAux rest []
      else acc.reverse :: splitWSAux rest []
    else splitWSAux rest (c :: acc)

/-- Python `str.split()` with no argument: split on runs of whitespace and
drop empty words. -/
def pySplit (s : String) : List (List Char) := splitWSAux s.data []

/-- Numeric value of a digit string (most significant digit first). -/
def digitsVal (l : List Char) : ℕ :=
  l.foldl (fun a c => 10 * a + (c.toNat - 48)) 0

/-- Python `float()` on an unsigned decimal literal: digits, optionally a
point and more digits, at least one digit overall; anything else fails.
The value `ip.frac` is the exact rational `(ip * 10 ^ len + frac) / 10 ^ len`,
built with `mkRat`. -/
def parseUnsigned (l : List Char) : Option ℚ :=
  let ip := l.takeWhile (fun c => c.isDigit)
  let rest := l.drop ip.length
  match rest with
  | [] => if ip.isEmpty then none else some (mkRat (digitsVal ip) 1)
  | '.' :: frac =>
    if (ip.isEmpty ∧ frac.isEmpty) ∨ ¬ frac.all (fun c => c.isDigit) then none
    else some (mkRat (digitsVal ip * 10 ^ frac.length + digitsVal frac) (10 ^ frac.length))
  | _ => none

/-- Python `float()` on the decimal notation occurring in the location
strings: an optional sign followed by an unsigned decimal literal.
`none` models the `ValueError` that the `except` of line 159 swallows. -/
def parseFloat (s : List Char) : Option ℚ :=
  match s with
  | '-' :: rest => (parseUnsigned rest).map (fun q => -q)
  | '+' :: rest => parseUnsigned rest
  | _ => parseUnsigned s

/-- Lines 152-161: `extract_coords`.  `str(location).split()` is split on
whitespace; `parts[1].replace('(', '')` and `parts[2].replace(')', '')`
remove every parenthesis character; any parse failure (or fewer than three
parts) yields the fixed fallback `47.5, -120.5` ("Default WA center"). -/
def extract_coords (loc : Option String) : ℚ × ℚ :=
  let parts := pySplit (pyStr loc)
  if 3 ≤ parts.length then
    match parseFloat ((parts.getD 1 []).filter (fun c => c ≠ '(')),
          parseFloat ((parts.getD 2 []).filter (fun c => c ≠ ')')) with
    | some lon, some lat => (lat, lon)
    | some _, none => (47.5, -120.5)
    | none, _ => (47.5, -120.5)
  else (47.5, -120.5)

/-- Line 163: `zip_coords = ev_bev.groupby('Postal Code')['Vehicle Location']
.first().apply(extract_coords)` — a Series of (lat, lon) pairs indexed by the
postal-code strings. -/
def zip_coords (evBev : List VehicleRow) : List (String × (ℚ × ℚ)) :=
  (groupKeys (evBev.map (fun r => r.postalCode))).map (fun code =>
    (code,
      extract_coords (firstNonNull ((evZipGroup evBev code).map (fun r => r.location)))))

/-- A pandas index label: `df` after `merge` carries a RangeIndex (integer
labels), while `zip_coords` carries the postal-code strings as labels. -/
inductive PLabel where
  | pint : Nat → PLabel
  | pstr : String → PLabel
deriving DecidableEq

/-- Label-based lookup in a Series, as pandas alignment performs it. -/
def seriesLookup (v : List (PLabel × ℚ)) (l : PLabel) : Option ℚ :=
  Option.map (fun p => p.2) (v.find? (fun p => p.1 = l))

/-- Semantics of `Series.fillna(other)` at one label: keep the value when present,
otherwise take the value of `other` at the same label, when it has one. -/
def fillVal (cur : Option ℚ) (v : List (PLabel × ℚ)) (l : PLabel) : Option ℚ :=
  match cur with
  | some y => some y
  | none => seriesLookup v l

/-- Positions of the rows of a dataframe, i.e. its RangeIndex labels. -/
def withPositions {α : Type} (l : List α) : List (Nat × α) :=
  (List.range l.length).zip l

/-- Lines 164-165: `df['Latitude'] = df['Latitude'].fillna(zip_coords.apply(
lambda x: x[0]))` and the same for longitude.  The `Latitude` column of `df`
is labelled by the RangeIndex positions `pint i`, while `zip_coords` is
labelled by postal-code strings `pstr code`; `fillna` aligns the two by
label equality. -/
def fillCoords (merged : List MergedRow) (zc : List (String × (ℚ × ℚ))) :
    List MergedRow :=
  let latV := zc.map (fun p => (PLabel.pstr p.1, p.2.1))
  let lngV := zc.map (fun p => (PLabel.pstr p.1, p.2.2))
  (withPositions merged).map (fun ir =>
    { ir.2 with
      lat := fillVal ir.2.lat latV (PLabel.pint ir.1)
      lng := fillVal ir.2.lng lngV (PLabel.pint ir.1) })

/-- Lines 168-172: the `EV_to_Port_Ratio` column,
`np.where(df['Total_Ports'] > 0, df['Total_EVs'] / df['Total_Ports'], np.inf)`;
`⊤` models `np.inf`. -/
def ratioMetric (evs ports : Nat) : WithTop ℚ :=
  if 0 < ports then (((evs : ℚ) / (ports : ℚ) : ℚ) : WithTop ℚ) else ⊤

/-- Lines 175-183: `categorize_priority`, evaluated top to bottom
(first match wins). -/
def categorize_priority (r : WithTop ℚ) : String :=
  if r = ⊤ then "CRITICAL - No Ports"
  else if ((100 : ℚ) : WithTop ℚ) < r then "High Opportunity"
  else if ((50 : ℚ) : WithTop ℚ) < r then "Medium Opportunity"
  else "Well Served"

/-- Lines 148 and 168-185 applied to one merged row: `Total_Ports.fillna(0)
.astype(int)`, the ratio column, and the `Priority_Level` column.  These are
per-row column assignments, independent of the coordinate columns, so their
order relative to the coordinate fill does not matter. -/
def scoreRow (m : MergedRow) : Row :=
  let tp := m.portsRaw.getD 0
  let r := ratioMetric m.totalEVs tp
  { postal := m.postal, totalEVs := m.totalEVs, county := m.county,
    city := m.city, totalPorts := tp, lat := m.lat, lng := m.lng,
    ratioVal := r, priority := categorize_priority r }

/-- The whole derivation of the master dataframe `df` (lines 85-185) from
the two raw inputs: filter both sides, aggregate, left-merge, fill the port
and coordinate columns, and derive the ratio and priority columns.
The result is an error when the `City` mode lambda raises. -/
def makeDf (ev : List VehicleRow) (stations : List StationRow) :
    Except String (List Row) :=
  let evBev := bevVehicles ev
  let stPub := stations.filter (fun r => r.accessCode = "public")
  Except.map
    (fun evz =>
      (fillCoords (leftMerge evz (ports_by_zip stPub)) (zip_coords evBev)).map
        scoreRow)
    (ev_by_zip evBev)

/-- Descending order on the vehicle count, the sort key of line 222. -/
def byEVsDesc (a b : Row) : Prop := b.totalEVs ≤ a.totalEVs

instance : DecidableRel byEVsDesc := fun a b => Nat.decLe b.totalEVs a.totalEVs

instance : IsTotal Row byEVsDesc :=
  ⟨fun a b => (Nat.le_total b.totalEVs a.totalEVs).elim Or.inl Or.inr⟩

instance : IsTrans Row byEVsDesc :=
  ⟨fun _ _ _ hab hbc => le_trans hbc hab⟩

/-- Descending order on the ratio column, the sort key of line 275. -/
def byRatioDesc (a b : Row) : Prop := b.ratioVal ≤ a.ratioVal

instance : DecidableRel byRatioDesc := fun a b =>
  inferInstanceAs (Decidable (b.ratioVal ≤ a.ratioVal))

/-- Lines 219-222: `priority_targets = df[(df['Total_Ports'] < 2) &
(df['Total_EVs'] > 50)].sort_values('Total_EVs', ascending=False).head(10)`. -/
def priority_targets (rows : List Row) : List Row :=
  ((rows.filter (fun r => r.totalPorts < 2 ∧ 50 < r.totalEVs)).insertionSort
    byEVsDesc).take 10

/-- Line 275: `top_targets = df[df['Total_EVs'] > 20]
.sort_values('EV_to_Port_Ratio', ascending=False).head(50)`. -/
def top_targets (rows : List Row) : List Row :=
  ((rows.filter (fun r => 20 < r.totalEVs)).insertionSort byRatioDesc).take 50

/-- The tie-break rule stated by the spec for the city aggregate, written
from the spec words: among the most frequent city values of the group, take
the one occurring first in input row order. -/
def specCityChoice (cities : List String) : Option String :=
  (cities.filter (fun c => ∀ d ∈ cities, cities.count d ≤ cities.count c)).head?

/-! ### Helper lemmas -/

theorem exceptMapM_map_eq {ε α β : Type} {f : α → Except ε β} {g : β → α}
    (hg : ∀ a b, f a = Except.ok b → g b = a) :
    ∀ {l : List α} {out : List β}, exceptMapM f l = Except.ok out →
      out.map g = l := by
  intro l
  induction l with
  | nil =>
    intro out h
    simp only [exceptMapM] at h
    cases h
    rfl
  | cons a t ih =>
    intro out h
    simp only [exceptMapM] at h
    cases hfa : f a with
    | error e => rw [hfa] at h; cases h
    | ok b =>
      rw [hfa] at h
      cases hrec : exceptMapM f t with
      | error e => rw [hrec] at h; cases h
      | ok obs =>
        rw [hrec] at h
        simp only [Except.map] at h
        cases h
        simp only [List.map_cons, hg a b hfa, ih hrec]

theorem exceptMapM_mem {ε α β : Type} {f : α → Except ε β} :
    ∀ {l : List α} {out : List β}, exceptMapM f l = Except.ok out →
      ∀ {b : β}, b ∈ out → ∃ a ∈ l, f a = Except.ok b := by
  intro l
  induction l with
  | nil =>
    intro out h b hb
    simp only [exceptMapM] at h
    cases h
    cases hb
  | cons a t ih =>
    intro out h b hb
    simp only [exceptMapM] at h
    cases hfa : f a with
    | error e => rw [hfa] at h; cases h
    | ok b0 =>
      rw [hfa] at h
      cases hrec : exceptMapM f t with
      | error e => rw [hrec] at h; cases h
      | ok obs =>
        rw [hrec] at h
        simp only [Except.map] at h
        cases h
        rcases List.mem_cons.mp hb with hb0 | hbt
        · exact ⟨a, List.mem_cons_self a t, hb0 ▸ hfa⟩
        · rcases ih hrec hbt with ⟨a1, ha1, hfa1⟩
          exact ⟨a1, List.mem_cons_of_mem a ha1, hfa1⟩

theorem groupKeys_nodup (keys : List String) : (groupKeys keys).Nodup :=
  (List.perm_insertionSort _ keys.dedup).nodup_iff.mpr (List.nodup_dedup keys)

theorem mem_groupKeys {keys : List String} {a : String} :
    a ∈ groupKeys keys ↔ a ∈ keys := by
  unfold groupKeys
  rw [(List.perm_insertionSort _ keys.dedup).mem_iff, List.mem_dedup]

theorem countP_eq_one_of_nodup {α : Type} [DecidableEq α] {l : List α}
    (h : l.Nodup) {a : α} (ha : a ∈ l) :
    l.countP (fun s => s = a) = 1 := by
  induction l with
  | nil => cases ha
  | cons x t ih =>
    rcases List.nodup_cons.mp h with ⟨hx, ht⟩
    rw [List.countP_cons]
    rcases List.mem_cons.mp ha with rfl | hat
    · have h0 : t.countP (fun s => s = a) = 0 :=
        List.countP_eq_zero.mpr (fun s hs => by
          simp only [decide_eq_true_eq]
          exact fun hsa => hx (hsa ▸ hs))
      simp [h0]
    · have hxa : x ≠ a := fun hxa => hx (hxa ▸ hat)
      simp [ih ht hat, hxa]

theorem countP_le_one_of_nodup {α : Type} [DecidableEq α] {l : List α}
    (h : l.Nodup) (a : α) :
    l.countP (fun s => s = a) ≤ 1 := by
  induction l with
  | nil => simp
  | cons x t ih =>
    rcases List.nodup_cons.mp h with ⟨hx, ht⟩
    rw [List.countP_cons]
    by_cases hxa : x = a
    · subst hxa
      have h0 : t.countP (fun s => s = x) = 0 :=
        List.countP_eq_zero.mpr (fun s hs => by
          simp only [decide_eq_true_eq]
          exact fun hsa => hx (hsa ▸ hs))
      simp [h0]
    · simpa [hxa] using ih ht

theorem withPositions_map_snd {α : Type} (l : List α) :
    (withPositions l).map Prod.snd = l :=
  List.map_snd_zip _ _ (by simp [List.length_range])

theorem ports_by_zip_keys (stPub : List StationRow) :
    (ports_by_zip stPub).map (fun p => p.zip) =
      groupKeys (stPub.map (fun r => toString r.zip)) := by
  unfold ports_by_zip
  rw [List.map_map]
  exact List.map_id _

theorem ports_by_zip_keys_nodup (stPub : List StationRow) :
    ((ports_by_zip stPub).map (fun p => p.zip)).Nodup := by
  rw [ports_by_zip_keys]
  exact groupKeys_nodup _

theorem fillCoords_map_postal (m : List MergedRow)
    (zc : List (String × (ℚ × ℚ))) :
    (fillCoords m zc).map (fun x => x.postal) = m.map (fun x => x.postal) := by
  unfold fillCoords
  rw [List.map_map]
  have h2 : (withPositions m).map
      ((fun x : MergedRow => x.postal) ∘ Prod.snd) = m.map (fun x => x.postal) := by
    rw [← List.map_map, withPositions_map_snd]
  exact h2

theorem scoreRow_map_postal (m : List MergedRow) :
    ((m.map scoreRow).map (fun x => x.postal)) = m.map (fun x => x.postal) := by
  rw [List.map_map]
  rfl

theorem countP_map_const {α β : Type} (f : α → β) (p : β → Bool) (c : Bool)
    (hc : ∀ a, p (f a) = c) (l : List α) :
    (l.map f).countP p = if c then l.length else 0 := by
  induction l with
  | nil => cases c <;> simp
  | cons x t ih =>
    rw [List.map_cons, List.countP_cons, ih, hc]
    cases c <;> simp [Nat.add_comm]

theorem leftMerge_countP (evz : List EvZipRow) (pz : List PortsZipRow)
    (hnd : (pz.map (fun p => p.zip)).Nodup) (code : String) :
    (leftMerge evz pz).countP (fun m => m.postal = code) =
      evz.countP (fun e => e.postal = code) := by
  induction evz with
  | nil => rfl
  | cons e t ih =>
    simp only [leftMerge, List.flatMap_cons] at ih ⊢
    rw [List.countP_append, ih, List.countP_cons]
    by_cases hm : (pz.filter (fun p => p.zip = e.postal)).isEmpty
    · rw [if_pos hm]
      by_cases hec : e.postal = code <;> simp [hec, Nat.add_comm]
    · rw [if_neg hm]
      have hcc := countP_map_const
        (fun p : PortsZipRow =>
          ({ postal := e.postal, totalEVs := e.totalEVs, county := e.county,
             city := e.city, zipCol := some p.zip, portsRaw := some p.totalPorts,
             lat := p.lat, lng := p.lng } : MergedRow))
        (fun m : MergedRow => decide (m.postal = code))
        (decide (e.postal = code)) (fun _ => rfl)
        (pz.filter (fun p => p.zip = e.postal))
      rw [hcc]
      have hms : (pz.filter (fun p => p.zip = e.postal)).length = 1 := by
        have hle : (pz.filter (fun p => p.zip = e.postal)).length ≤ 1 := by
          have h2 := countP_le_one_of_nodup hnd e.postal
          rw [List.countP_map] at h2
          rw [← List.countP_eq_length_filter]
          exact h2
        have hpos : 0 < (pz.filter (fun p => p.zip = e.postal)).length := by
          cases hfe : pz.filter (fun p => p.zip = e.postal) with
          | nil => rw [hfe] at hm; simp at hm
          | cons x xs => simp [hfe]
        omega
      rw [hms]
      by_cases hec : e.postal = code <;> simp [hec, Nat.add_comm]

theorem makeDf_ok {ev : List VehicleRow} {stations : List StationRow}
    {rows : List Row} (h : makeDf ev stations = Except.ok rows) :
    ∃ evz, ev_by_zip (bevVehicles ev) = Except.ok evz ∧
      rows = (fillCoords
        (leftMerge evz (ports_by_zip (stations.filter (fun r => r.accessCode = "public"))))
        (zip_coords (bevVehicles ev))).map scoreRow := by
  simp only [makeDf] at h
  cases hz : ev_by_zip (bevVehicles ev) with
  | error e => rw [hz] at h; cases h
  | ok evz =>
    rw [hz] at h
    simp only [Except.map] at h
    cases h
    exact ⟨evz, rfl, rfl⟩

theorem ev_by_zip_postals {evBev : List VehicleRow} {evz : List EvZipRow}
    (h : ev_by_zip evBev = Except.ok evz) :
    evz.map (fun e => e.postal) =
      groupKeys (evBev.map (fun r => r.postalCode)) := by
  apply exceptMapM_map_eq (g := fun e => e.postal) _ h
  intro code b hb
  cases hc : cityAgg (List.map (fun r => r.city) (evZipGroup evBev code)) with
  | error e => exact absurd hb (by simp [hc, Except.map])
  | ok c =>
    simp only [hc, Except.map, Except.ok.injEq] at hb
    subst hb
    rfl

theorem countP_key {α : Type} (g : α → String) (code : String) (l : List α) :
    l.countP (fun x => g x = code) = (l.map g).countP (fun s => s = code) := by
  rw [List.countP_map]
  rfl

/-! ### Concrete sample inputs used by the witnesses -/

/-- A qualifying vehicle row: Washington, BEV, postal code "98101". -/
def vSample : VehicleRow :=
  ⟨"WA", "Battery Electric Vehicle (BEV)", "98101", some "King", some "Seattle",
   some "VIN1", some "POINT (-122.33 47.61)"⟩

/-- The master-dataframe row the pipeline derives from `[vSample]` and an
empty station table. -/
def rowSample : Row :=
  ⟨"98101", 1, some "King", "Seattle", 0, none, none, ⊤, "CRITICAL - No Ports"⟩

/-- The master dataframe derived from `[vSample]` and no stations. -/
def dfSample : List Row := [rowSample]

/-! ### The claims -/

/-- C1: for every postal code with at least one vehicle row surviving the
region and drivetrain filters, the final derived table contains exactly one
row with that postal code — the left merge drops no vehicle-side code and
duplicates none. -/
theorem df_postal_code_exactly_once (ev : List VehicleRow)
    (stations : List StationRow) (rows : List Row)
    (h : makeDf ev stations = Except.ok rows) (code : String)
    (hcode : ∃ r ∈ bevVehicles ev, r.postalCode = code) :
    (rows.filter (fun x => x.postal = code)).length = 1 := by
  obtain ⟨evz, hz, hrows⟩ := makeDf_ok h
  rw [← List.countP_eq_length_filter]
  subst hrows
  rw [countP_key (fun x : Row => x.postal) code, scoreRow_map_postal,
    fillCoords_map_postal, ← countP_key (fun x : MergedRow => x.postal) code,
    leftMerge_countP _ _ (ports_by_zip_keys_nodup _) code,
    countP_key (fun e : EvZipRow => e.postal) code, ev_by_zip_postals hz]
  apply countP_eq_one_of_nodup (groupKeys_nodup _)
  apply mem_groupKeys.mpr
  rcases hcode with ⟨r, hr, hrc⟩
  exact List.mem_map.mpr ⟨r, hr, hrc⟩

/-- Witness for C1 at a concrete input. -/
theorem df_postal_code_exactly_once_witness :
    (dfSample.filter (fun x => x.postal = "98101")).length = 1 :=
  df_postal_code_exactly_once [vSample] [] dfSample (by rfl) "98101"
    ⟨vSample, by decide, by decide⟩

theorem makeDf_row_ratioVal {ev : List VehicleRow} {stations : List StationRow}
    {rows : List Row} (h : makeDf ev stations = Except.ok rows) {r : Row}
    (hr : r ∈ rows) : r.ratioVal = ratioMetric r.totalEVs r.totalPorts := by
  obtain ⟨evz, hz, hrows⟩ := makeDf_ok h
  subst hrows
  obtain ⟨m, hm, rfl⟩ := List.mem_map.mp hr
  rfl

/-- C2: in every row of the final derived table, the ratio column is the
infinity sentinel exactly when the row's total port count is zero, and for a
positive port count it is total vehicles divided by total ports; a zero port
count produces the sentinel, not an error. -/
theorem df_ratio_top_iff_no_ports (ev : List VehicleRow)
    (stations : List StationRow) (rows : List Row)
    (h : makeDf ev stations = Except.ok rows) (r : Row) (hr : r ∈ rows) :
    (r.ratioVal = ⊤ ↔ r.totalPorts = 0) ∧
      (0 < r.totalPorts →
        r.ratioVal = (((r.totalEVs : ℚ) / (r.totalPorts : ℚ) : ℚ) : WithTop ℚ)) := by
  rw [makeDf_row_ratioVal h hr]
  unfold ratioMetric
  constructor
  · by_cases hp : 0 < r.totalPorts
    · rw [if_pos hp]
      simp only [WithTop.coe_ne_top, false_iff]
      omega
    · rw [if_neg hp]
      simp only [true_iff]
      omega
  · intro hp
    rw [if_pos hp]

/-- Witness for C2 at a concrete input. -/
theorem df_ratio_top_iff_no_ports_witness :
    (rowSample.ratioVal = ⊤ ↔ rowSample.totalPorts = 0) ∧
      (0 < rowSample.totalPorts →
        rowSample.ratioVal =
          (((rowSample.totalEVs : ℚ) / (rowSample.totalPorts : ℚ) : ℚ) : WithTop ℚ)) :=
  df_ratio_top_iff_no_ports [vSample] [] dfSample (by rfl) rowSample (by decide)


/-- C3 counterexample: the script labels an infinite ratio with the
ASCII-hyphen string "CRITICAL - No Ports", not the en-dash string
"CRITICAL – No Ports" the claim states. -/
theorem categorize_priority_endash_cex :
    categorize_priority ⊤ ≠ "CRITICAL – No Ports" := by decide

/-- C3 (amended to the label the code produces): the priority label is a
pure function of the ratio, evaluated first-match-wins: `⊤` maps to
"CRITICAL - No Ports", a finite ratio above 100 to "High Opportunity",
one in (50, 100] to "Medium Opportunity", one at most 50 to "Well Served";
in particular 150, 75 and 10 map to the three finite labels. -/
theorem categorize_priority_spec :
    categorize_priority ⊤ = "CRITICAL - No Ports"
    ∧ (∀ q : ℚ, 100 < q →
        categorize_priority ((q : ℚ) : WithTop ℚ) = "High Opportunity")
    ∧ (∀ q : ℚ, 50 < q → q ≤ 100 →
        categorize_priority ((q : ℚ) : WithTop ℚ) = "Medium Opportunity")
    ∧ (∀ q : ℚ, q ≤ 50 →
        categorize_priority ((q : ℚ) : WithTop ℚ) = "Well Served")
    ∧ categorize_priority ((150 : ℚ) : WithTop ℚ) = "High Opportunity"
    ∧ categorize_priority ((75 : ℚ) : WithTop ℚ) = "Medium Opportunity"
    ∧ categorize_priority ((10 : ℚ) : WithTop ℚ) = "Well Served" := by
  have htop : categorize_priority ⊤ = "CRITICAL - No Ports" := by
    unfold categorize_priority
    rw [if_pos rfl]
  have hhi : ∀ q : ℚ, 100 < q →
      categorize_priority ((q : ℚ) : WithTop ℚ) = "High Opportunity" := by
    intro q hq
    unfold categorize_priority
    rw [if_neg WithTop.coe_ne_top, if_pos (WithTop.coe_lt_coe.mpr hq)]
  have hmed : ∀ q : ℚ, 50 < q → q ≤ 100 →
      categorize_priority ((q : ℚ) : WithTop ℚ) = "Medium Opportunity" := by
    intro q h1 h2
    unfold categorize_priority
    rw [if_neg WithTop.coe_ne_top,
      if_neg (fun hlt => absurd (WithTop.coe_lt_coe.mp hlt) (not_lt.mpr h2)),
      if_pos (WithTop.coe_lt_coe.mpr h1)]
  have hwell : ∀ q : ℚ, q ≤ 50 →
      categorize_priority ((q : ℚ) : WithTop ℚ) = "Well Served" := by
    intro q h1
    unfold categorize_priority
    rw [if_neg WithTop.coe_ne_top,
      if_neg (fun hlt => absurd (WithTop.coe_lt_coe.mp hlt)
        (not_lt.mpr (h1.trans (by norm_num)))),
      if_neg (fun hlt => absurd (WithTop.coe_lt_coe.mp hlt) (not_lt.mpr h1))]
  exact ⟨htop, hhi, hmed, hwell, hhi 150 (by norm_num),
    hmed 75 (by norm_num) (by norm_num), hwell 10 (by norm_num)⟩

/-- Witness for C3 at concrete ratios. -/
theorem categorize_priority_spec_witness :
    categorize_priority ((150 : ℚ) : WithTop ℚ) = "High Opportunity"
    ∧ categorize_priority ((75 : ℚ) : WithTop ℚ) = "Medium Opportunity"
    ∧ categorize_priority ((10 : ℚ) : WithTop ℚ) = "Well Served" :=
  ⟨categorize_priority_spec.2.1 150 (by norm_num),
   categorize_priority_spec.2.2.1 75 (by norm_num) (by norm_num),
   categorize_priority_spec.2.2.2.1 10 (by norm_num)⟩

/-- C4: the three-tier coordinate fallback does not survive in the code.
`df['Latitude'].fillna(zip_coords.apply(...))` aligns the RangeIndex labels
of `df` (integers) with the postal-code string labels of `zip_coords`, so no
label ever matches and nothing is filled: for a code with no station the
coordinate stays NaN (`none`), even though the vehicle location of that code
parses fine (last conjunct), and the fixed centroid is never reached
either. -/
theorem coordinate_fill_leaves_nan :
    makeDf [vSample] [] = Except.ok [rowSample]
    ∧ rowSample.lat = none
    ∧ rowSample.lng = none
    ∧ extract_coords (some "POINT (-122.33 47.61)") = (47.61, -122.33) := by
  refine ⟨by rfl, by rfl, by rfl, ?_⟩
  have h : extract_coords (some "POINT (-122.33 47.61)") =
      (mkRat 4761 100, -(mkRat 12233 100)) := by rfl
  rw [h, Prod.mk.injEq, Rat.mkRat_eq_div, Rat.mkRat_eq_div]
  norm_num

/-- The 60 identical qualifying BEV rows of the C5 scenario. -/
def ev60 : List VehicleRow := List.replicate 60 vSample

/-- The single master-dataframe row derived from `ev60` and no stations. -/
def row60 : Row :=
  ⟨"98101", 60, some "King", "Seattle", 0, none, none, ⊤, "CRITICAL - No Ports"⟩

/-- C5 counterexample: on the 60-BEV/no-station scenario the produced label
is the ASCII-hyphen "CRITICAL - No Ports", not the en-dash string the claim
asserts. -/
theorem scenario_98101_label_cex :
    Except.map (fun rows => rows.map (fun r : Row => r.priority)) (makeDf ev60 []) =
      Except.ok ["CRITICAL - No Ports"]
    ∧ "CRITICAL - No Ports" ≠ "CRITICAL – No Ports" :=
  ⟨by rfl, by decide⟩

/-- C5 (amended to the label string the code produces): the end-to-end
scenario — 60 qualifying BEV rows for "98101", no stations — yields exactly
one row, with 60 vehicles, 0 ports, infinite ratio, label
"CRITICAL - No Ports", and that row satisfies the top-10 predicate
(ports < 2 and vehicles > 50) and the top-50 predicate (vehicles > 20). -/
theorem scenario_98101 :
    makeDf ev60 [] = Except.ok [row60]
    ∧ row60.postal = "98101"
    ∧ row60.totalEVs = 60
    ∧ row60.totalPorts = 0
    ∧ row60.ratioVal = ⊤
    ∧ row60.priority = "CRITICAL - No Ports"
    ∧ (row60.totalPorts < 2 ∧ 50 < row60.totalEVs)
    ∧ 20 < row60.totalEVs :=
  ⟨by rfl, by rfl, by rfl, by rfl, by rfl, by rfl, ⟨by decide, by decide⟩, by decide⟩

/-- C6: the top-10 view is exactly the rows with fewer than 2 ports and more
than 50 vehicles, sorted descending by vehicle count and truncated to 10;
any row with at most 50 vehicles is excluded whatever its port count. -/
theorem priority_targets_spec (rows : List Row) :
    (∃ l : List Row,
        l.Perm (rows.filter (fun r => r.totalPorts < 2 ∧ 50 < r.totalEVs))
        ∧ l.Sorted byEVsDesc
        ∧ priority_targets rows = l.take 10)
    ∧ (∀ r : Row, r.totalEVs ≤ 50 → r ∉ priority_targets rows) := by
  constructor
  · refine ⟨(rows.filter
        (fun r => decide (r.totalPorts < 2 ∧ 50 < r.totalEVs))).insertionSort
        byEVsDesc,
      List.perm_insertionSort _ _, List.sorted_insertionSort _ _, ?_⟩
    rfl
  · intro r hle hmem
    unfold priority_targets at hmem
    have h1 := List.take_subset 10 _ hmem
    rw [List.mem_insertionSort] at h1
    have h2 := List.of_mem_filter h1
    simp only [decide_eq_true_eq] at h2
    omega

/-- A row with 30 vehicles and 1 port, as in the exclusion example of the
spec. -/
def row30 : Row :=
  ⟨"98001", 30, none, "", 1, none, none, ((30 : ℚ) : WithTop ℚ), "Well Served"⟩

/-- Witness for C6 at a concrete input: the 30-vehicle row is excluded. -/
theorem priority_targets_spec_witness : row30 ∉ priority_targets [row30] :=
  (priority_targets_spec [row30]).2 row30 (by decide)


theorem mem_le_foldr_max {l : List ℕ} {x : ℕ} (hx : x ∈ l) :
    x ≤ l.foldr max 0 := by
  induction l with
  | nil => cases hx
  | cons a t ih =>
    rcases List.mem_cons.mp hx with rfl | ht
    · exact le_max_left _ _
    · exact (ih ht).trans (le_max_right _ _)

/-- Properties of the head of the sorted mode list: it is a most frequent
value, and the least string among the most frequent values. -/
theorem seriesMode_head_props {l : List (Option String)} {c : String}
    (hc : (seriesMode l).head? = some c) :
    c ∈ l.reduceOption
    ∧ (∀ d ∈ l.reduceOption,
        l.reduceOption.count d ≤ l.reduceOption.count c)
    ∧ (∀ d ∈ l.reduceOption,
        l.reduceOption.count d = l.reduceOption.count c → strLe c d = true) := by
  simp only [seriesMode] at hc
  cases hmodes : (l.reduceOption.dedup.filter (fun v =>
      l.reduceOption.count v =
        (l.reduceOption.dedup.map (fun v => l.reduceOption.count v)).foldr max 0)).insertionSort
      (fun a b => strLe a b = true) with
  | nil => rw [hmodes] at hc; cases hc
  | cons c0 rest =>
    rw [hmodes] at hc
    simp only [List.head?_cons, Option.some.injEq] at hc
    have hc2 : c = c0 := hc.symm
    subst hc2
    have hcmem : c ∈ (l.reduceOption.dedup.filter (fun v =>
        l.reduceOption.count v =
          (l.reduceOption.dedup.map (fun v => l.reduceOption.count v)).foldr max 0)) := by
      have h2 : c ∈ (l.reduceOption.dedup.filter (fun v =>
          l.reduceOption.count v =
            (l.reduceOption.dedup.map (fun v => l.reduceOption.count v)).foldr max 0)).insertionSort
          (fun a b => strLe a b = true) := by
        rw [hmodes]
        exact List.mem_cons_self _ _
      rwa [List.mem_insertionSort] at h2
    obtain ⟨hcu, hcc⟩ := List.mem_filter.mp hcmem
    have hccount : l.reduceOption.count c =
        (l.reduceOption.dedup.map (fun v => l.reduceOption.count v)).foldr max 0 :=
      of_decide_eq_true hcc
    refine ⟨List.mem_dedup.mp hcu, ?_, ?_⟩
    · intro d hd
      rw [hccount]
      exact mem_le_foldr_max
        (List.mem_map_of_mem _ (List.mem_dedup.mpr hd))
    · intro d hd hcount
      have hdf : d ∈ (l.reduceOption.dedup.filter (fun v =>
          l.reduceOption.count v =
            (l.reduceOption.dedup.map (fun v => l.reduceOption.count v)).foldr max 0)) :=
        List.mem_filter.mpr ⟨List.mem_dedup.mpr hd,
          decide_eq_true (hcount.trans hccount)⟩
      have hdm : d ∈ (l.reduceOption.dedup.filter (fun v =>
          l.reduceOption.count v =
            (l.reduceOption.dedup.map (fun v => l.reduceOption.count v)).foldr max 0)).insertionSort
          (fun a b => strLe a b = true) := by
        rw [List.mem_insertionSort]
        exact hdf
      have hs := List.sorted_insertionSort (fun a b : String => strLe a b = true)
        (l.reduceOption.dedup.filter (fun v =>
          l.reduceOption.count v =
            (l.reduceOption.dedup.map (fun v => l.reduceOption.count v)).foldr max 0))
      rw [hmodes] at hdm hs
      rcases List.mem_cons.mp hdm with rfl | hdr
      · rcases listLe_total d.data d.data with h | h <;> exact h
      · exact List.rel_of_sorted_cons hs d hdr

/-- Inverting a successful `cityAgg` on a group with at least one
non-missing city: the result is the head of the sorted mode list. -/
theorem cityAgg_ok_head {l : List (Option String)} {c : String}
    (h : cityAgg l = Except.ok c) (hne : l.reduceOption ≠ []) :
    (seriesMode l).head? = some c := by
  have hlen : 0 < l.length := by
    cases l with
    | nil => exact absurd rfl hne
    | cons a t => simp
  unfold cityAgg at h
  rw [if_pos hlen] at h
  cases hm : (seriesMode l).head? with
  | some c0 => rw [hm] at h; cases h; rfl
  | none => rw [hm] at h; cases h

/-- Inverting one row of a successful `ev_by_zip`: its fields come from the
three column aggregations of its own group. -/
theorem ev_by_zip_row {evBev : List VehicleRow} {out : List EvZipRow}
    (h : ev_by_zip evBev = Except.ok out) {row : EvZipRow} (hrow : row ∈ out) :
    cityAgg ((evZipGroup evBev row.postal).map (fun r => r.city)) =
        Except.ok row.city
    ∧ row.county = firstNonNull ((evZipGroup evBev row.postal).map (fun r => r.county))
    ∧ row.totalEVs =
        ((evZipGroup evBev row.postal).map (fun r => r.vin)).reduceOption.length := by
  obtain ⟨code, hcode, hf⟩ := exceptMapM_mem h hrow
  cases hca : cityAgg ((evZipGroup evBev code).map (fun r => r.city)) with
  | error e => exact absurd hf (by simp [hca, Except.map])
  | ok cty =>
    simp only [hca, Except.map, Except.ok.injEq] at hf
    subst hf
    exact ⟨hca, rfl, rfl⟩

/-- The non-missing city values of one postal-code group, in row order. -/
def groupCities (evBev : List VehicleRow) (code : String) : List String :=
  ((evZipGroup evBev code).map (fun r => r.city)).reduceOption

/-- C7 counterexample: with two equally frequent cities "B" then "A" in
input order, the aggregate carries "A" (the lexicographically least mode,
because `Series.mode` returns the tied modes sorted), while the
first-occurrence rule stated by the claim would carry "B". -/
theorem city_tiebreak_cex :
    ev_by_zip [{ vSample with city := some "B" }, { vSample with city := some "A" }] =
      Except.ok [⟨"98101", 2, some "King", "A"⟩]
    ∧ specCityChoice ["B", "A"] = some "B" :=
  ⟨by rfl, by rfl⟩

/-- C7 (amended tie-break): each vehicle-aggregate row carries the first
non-missing county of its group, and its city is a most frequent city of
the group — with frequency ties broken by taking the lexicographically
least tied city, which is stable under input reordering. -/
theorem ev_by_zip_county_city (evBev : List VehicleRow) (out : List EvZipRow)
    (h : ev_by_zip evBev = Except.ok out) (row : EvZipRow) (hrow : row ∈ out) :
    row.county = firstNonNull ((evZipGroup evBev row.postal).map (fun r => r.county))
    ∧ (groupCities evBev row.postal ≠ [] →
        row.city ∈ groupCities evBev row.postal
        ∧ (∀ c ∈ groupCities evBev row.postal,
            (groupCities evBev row.postal).count c ≤
              (groupCities evBev row.postal).count row.city)
        ∧ (∀ c ∈ groupCities evBev row.postal,
            (groupCities evBev row.postal).count c =
              (groupCities evBev row.postal).count row.city →
            strLe row.city c = true)) := by
  obtain ⟨hca, hcounty, _⟩ := ev_by_zip_row h hrow
  refine ⟨hcounty, fun hne => ?_⟩
  exact seriesMode_head_props (cityAgg_ok_head hca hne)

/-- Witness for C7 at a concrete input: the chosen city is one of the
group's cities. -/
theorem ev_by_zip_county_city_witness :
    (⟨"98101", 2, some "King", "A"⟩ : EvZipRow).city ∈
      groupCities
        [{ vSample with city := some "B" }, { vSample with city := some "A" }]
        (⟨"98101", 2, some "King", "A"⟩ : EvZipRow).postal :=
  ((ev_by_zip_county_city
      [{ vSample with city := some "B" }, { vSample with city := some "A" }]
      [⟨"98101", 2, some "King", "A"⟩] (by rfl)
      ⟨"98101", 2, some "King", "A"⟩ (by decide)).2 (by decide)).1


theorem stripDot0_id : ∀ {l : List Char}, (∀ c ∈ l, c ≠ '.') →
    stripDot0 l = l := by
  intro l
  induction l with
  | nil => intro _; rfl
  | cons c t ih =>
    intro h
    have hc : c ≠ '.' := h c (List.mem_cons_self _ _)
    cases t with
    | nil => rfl
    | cons d t2 =>
      simp only [stripDot0]
      rw [if_neg (fun hcd => hc hcd.1)]
      rw [ih (fun x hx => h x (List.mem_cons_of_mem _ hx))]

theorem stripDot0_append : ∀ {l : List Char}, (∀ c ∈ l, c ≠ '.') →
    stripDot0 (l ++ ['.', '0']) = l := by
  intro l
  induction l with
  | nil => intro _; rfl
  | cons c t ih =>
    intro h
    have hc : c ≠ '.' := h c (List.mem_cons_self _ _)
    cases t with
    | nil =>
      simp only [List.cons_append, List.nil_append, stripDot0]
      rw [if_neg (fun hcd => hc hcd.1)]
      simp
    | cons d t2 =>
      simp only [List.cons_append, List.append_eq, stripDot0]
      rw [if_neg (fun hcd => hc hcd.1)]
      have h2 := ih (fun x hx => h x (List.mem_cons_of_mem _ hx))
      simp only [List.cons_append, List.append_eq] at h2
      rw [h2]

/-- C8: for a numeric postal code — a digit string `s` that float64
renders as `s ++ ".0"` — the vehicle-side normalisation strips exactly the
trailing ".0" artifact and nothing else, returning `s` itself; a bare digit
string (the station side after `astype(str)`) is left untouched, so the two
sides compare equal. -/
theorem normalizeZip_numeric_code (s : String)
    (hd : ∀ c ∈ s.data, c.isDigit = true) :
    normalizeZip (String.mk (s.data ++ ['.', '0'])) = s
    ∧ normalizeZip s = s := by
  have hnd : ∀ c ∈ s.data, c ≠ '.' := fun c hc heq => by
    subst heq
    exact absurd (hd _ hc) (by decide)
  constructor
  · show String.mk (stripDot0 (String.mk (s.data ++ ['.', '0'])).data) = s
    rw [show (String.mk (s.data ++ ['.', '0'])).data = s.data ++ ['.', '0'] from rfl,
      stripDot0_append hnd]
  · show String.mk (stripDot0 s.data) = s
    rw [stripDot0_id hnd]

/-- Witness for C8 at the concrete code 98101. -/
theorem normalizeZip_numeric_code_witness :
    normalizeZip (String.mk ("98101".data ++ ['.', '0'])) = "98101"
    ∧ normalizeZip "98101" = "98101" :=
  normalizeZip_numeric_code "98101" (by decide)

/-- C9: the coordinate parser is total — on every input (including NaN,
which `str()` renders "nan", and malformed text) it returns a pair, and it
returns the fixed fallback `(47.5, -120.5)` unless both coordinate fields
parse, in which case it returns exactly the parsed values.  No error
escapes: the `except` of the source is the fallback branch here. -/
theorem extract_coords_total (loc : Option String) :
    extract_coords loc = (47.5, -120.5) ∨
    (∃ lat lon : ℚ, extract_coords loc = (lat, lon)
      ∧ parseFloat (((pySplit (pyStr loc)).getD 1 []).filter (fun c => c ≠ '(')) =
          some lon
      ∧ parseFloat (((pySplit (pyStr loc)).getD 2 []).filter (fun c => c ≠ ')')) =
          some lat) := by
  unfold extract_coords
  by_cases h : 3 ≤ (pySplit (pyStr loc)).length
  · rw [if_pos h]
    cases h1 : parseFloat (((pySplit (pyStr loc)).getD 1 []).filter (fun c => c ≠ '(')) with
    | none => exact Or.inl rfl
    | some lon =>
      cases h2 : parseFloat (((pySplit (pyStr loc)).getD 2 []).filter (fun c => c ≠ ')')) with
      | none => exact Or.inl rfl
      | some lat => exact Or.inr ⟨lat, lon, rfl, rfl, rfl⟩
  · rw [if_neg h]
    exact Or.inl rfl

/-- A qualifying vehicle row whose `City` field is missing. -/
def vNoCity : VehicleRow := { vSample with city := none }

/-- C10: the claim that no pipeline step ever raises is violated.  For a
postal-code group whose city values are all missing, `x.mode()` drops the
NaNs and returns an empty Series, and `x.mode()[0]` raises `KeyError: 0` —
the `len(x) > 0` guard tests the wrong length.  The whole pipeline aborts
on such input. -/
theorem pipeline_raises_on_all_missing_city :
    makeDf [vNoCity] [] = Except.error "KeyError: 0"
    ∧ cityAgg [none] = Except.error "KeyError: 0" :=
  ⟨by rfl, by rfl⟩
